import Mathlib

/-!
Verification development for the IPC_QUERY ingestion pipeline.

This file gives a shallow embedding of the parts of the code base that the
checked claims concern: the part-number canonicalization engine, the anchor
detection in the part-number column, the nomenclature hierarchy builder, the
merge-ingest engine with its per-document commit discipline, the scan engine
state transition, the schema-creation routine, and the upload promotion with
backup and restore.  Machine real numbers (PDF coordinates, similarity
ratios) are embedded as rationals; database tables are embedded as lists of
row records; filesystem state is a map from path to contents.
-/

namespace IpcQuery

/-! ### Character and string helpers (from build_db.py) -/

/-- ASCII uppercase letter test, mirrors the `[A-Z]` character class. -/
def isUpperAlpha (c : Char) : Bool :=
  'A' ≤ c && c ≤ 'Z'

/-- ASCII digit test, mirrors the `\d` character class and `str.isdigit`
on the ASCII inputs this pipeline handles. -/
def isDig (c : Char) : Bool :=
  '0' ≤ c && c ≤ '9'

/-- Whitespace as matched by the `\s` class on the inputs in scope. -/
def isWs (c : Char) : Bool :=
  c = ' ' || c = '\t' || c = '\n' || c = '\r'

/-- `str.upper()` restricted to ASCII, which is all the pipeline feeds it. -/
def pyUpper (s : String) : String :=
  ⟨s.data.map Char.toUpper⟩

/-- `str.strip()`: drop leading and trailing whitespace. -/
def pyStrip (s : String) : String :=
  ⟨(((s.data.dropWhile isWs).reverse).dropWhile isWs).reverse⟩

/-- `str.rstrip()`: drop trailing whitespace. -/
def pyRstrip (s : String) : String :=
  ⟨((s.data.reverse).dropWhile isWs).reverse⟩

/-- `_norm_ws` from build_db.py: `re.sub(r"\s+", "", s)` removes every
whitespace character. -/
def normWsChars (l : List Char) : List Char :=
  l.filter (fun c => !(isWs c))

/-- The dash unification step `s.replace(chr(8211), "-").replace(chr(8212), "-")`
(en dash and em dash become an ASCII hyphen). -/
def dashFix (l : List Char) : List Char :=
  l.map (fun c => if c = '–' || c = '—' then '-' else c)

/-- Apply `f prev c next` to every character, where `prev` and `next` are the
neighbours in the ORIGINAL list.  This reproduces a `re.sub` whose pattern is
a single character with a one-character lookbehind and lookahead: the
lookarounds inspect the unmodified input. -/
def mapWithNeighbors (f : Option Char → Char → Option Char → Char) : List Char → List Char :=
  go none
where
  go : Option Char → List Char → List Char
    | _, [] => []
    | prev, c :: rest => f prev c rest.head? :: go (some c) rest

/-- `re.sub(r"(?<=\d)O(?=\d)", "0", s)`: an O between two digits becomes 0. -/
def subOtoZeroDigits (l : List Char) : List Char :=
  mapWithNeighbors
    (fun prev c next =>
      if c = 'O' && (prev.map isDig).getD false && (next.map isDig).getD false then '0' else c)
    l

/-- `re.sub(r"(?<=[A-Z])0(?=[A-Z])", "O", s)`: a 0 between two uppercase
letters becomes O. -/
def subZeroToOLetters (l : List Char) : List Char :=
  mapWithNeighbors
    (fun prev c next =>
      if c = '0' && (prev.map isUpperAlpha).getD false && (next.map isUpperAlpha).getD false
      then 'O' else c)
    l

/-- `_norm_loose` from build_db.py: uppercase, unify dashes, strip whitespace,
then the digit-context O to 0 substitution followed by the letter-context
0 to O substitution (applied to the result of the former). -/
def normLoose (s : String) : String :=
  ⟨subZeroToOLetters (subOtoZeroDigits (normWsChars (dashFix ((pyUpper s).data))))⟩

/-- `_norm_loose_cell` from build_db.py: identical to `normLoose` except that
the letter-context 0 to O substitution is NOT applied. -/
def normLooseCell (s : String) : String :=
  ⟨subOtoZeroDigits (normWsChars (dashFix ((pyUpper s).data)))⟩

/-! ### Canonicalization engine (`_canonicalize_part_number_indexed`) -/

/-- Result record of `_canonicalize_part_number_indexed`
(the `Canonicalization` dataclass; the free-text `note` field is omitted). -/
structure Canonicalization where
  canonical : String
  corrected : Bool
  method : String
  bestSimilarity : Option ℚ
  needsReview : Bool
deriving Repr, DecidableEq

/-- First-wins association lookup, mirrors `dict.get` for a dict built with
`setdefault` over the candidate list. -/
def lookupLoose (byLoose : List (String × String)) (key : String) : Option String :=
  (byLoose.find? (fun p => p.1 = key)).map Prod.snd

/-- The best-candidate fold of the fuzzy step: start from
`best = None, best_ratio = 0.0` and keep the first strict improvement, where
the ratio is computed between `normLoose c` and the loose raw value.
The similarity function itself is `difflib.SequenceMatcher(...).ratio`, an
external library routine, taken here as a parameter. -/
def bestCand (sim : String → String → ℚ) (candidates : List String) (rawLoose : String) :
    Option String × ℚ :=
  candidates.foldl
    (fun acc c =>
      let r := sim (normLoose c) rawLoose
      if r > acc.2 then (some c, r) else acc)
    (none, 0)

/-- `_canonicalize_part_number_indexed` from build_db.py.  `candidatesSet`
models the python set used for the exact test, `byLoose` the loose-key dict.
A python truthiness test (`if mapped:` and `if best and ...`) is an explicit
inequality with the empty string here. -/
def canonicalizePartNumberIndexed (sim : String → String → ℚ)
    (candidates : List String) (candidatesSet : List String)
    (byLoose : List (String × String)) (raw : String) : Canonicalization :=
  let raw := pyStrip raw
  if raw = "" then ⟨"", false, "empty", none, false⟩
  else
    let rawUpper := pyUpper raw
    if rawUpper ∈ candidatesSet then ⟨rawUpper, false, "exact", none, false⟩
    else
      let rawLoose := normLoose rawUpper
      let mapped := (lookupLoose byLoose rawLoose).getD ""
      if mapped ≠ "" then ⟨mapped, false, "loose", none, false⟩
      else
        let br := bestCand sim candidates rawLoose
        match br with
        | (some best, r) =>
          if best ≠ "" && r ≥ mkRat 92 100 then ⟨best, true, "fuzzy", some r, false⟩
          else if best ≠ "" && r ≥ mkRat 90 100 then ⟨best, true, "fuzzy_low", some r, true⟩
          else ⟨rawUpper, false, "unverified", none, true⟩
        | (none, _) => ⟨rawUpper, false, "unverified", none, true⟩

/-! ### Part-number shape tests (`_looks_like_part_number_cell`) -/

/-- Characters allowed after the first one by `PART_RE`
(`[A-Z0-9][A-Z0-9\-\./]*`). -/
def partBodyChar (c : Char) : Bool :=
  isUpperAlpha c || isDig c || c = '-' || c = '.' || c = '/'

/-- Full match of `PART_RE` from constants.py. -/
def partReFull (l : List Char) : Bool :=
  match l with
  | [] => false
  | c :: rest => (isUpperAlpha c || isDig c) && rest.all partBodyChar

/-- Full match of `FIGURE_CODE_RE` (`\d{2}-\d{2}-\d{2}-\d{2}[A-Z]?`; the word
boundaries are vacuous in a full match of this shape). -/
def isFigureCode (l : List Char) : Bool :=
  match l with
  | [a, b, '-', c, d, '-', e, f, '-', g, h] =>
      [a, b, c, d, e, f, g, h].all isDig
  | [a, b, '-', c, d, '-', e, f, '-', g, h, x] =>
      [a, b, c, d, e, f, g, h].all isDig && isUpperAlpha x
  | _ => false

/-- `_looks_like_part_number_cell` from build_db.py: conservative loose
normalization, then reject empty strings and figure codes, require the
`PART_RE` shape, allow digits-only values of length at least 3, and require
at least one digit otherwise. -/
def looksLikePartNumberCell (s : String) : Bool :=
  let t := (normLooseCell s).data
  if t.isEmpty then false
  else if isFigureCode t then false
  else if !(partReFull t) then false
  else if t.all isDig then decide (t.length ≥ 3)
  else t.any isDig

/-! ### Coordinate model and anchor detection (`_coords_part_number_anchors`) -/

/-- One PDF word box as produced by `page.get_text("words")`:
`(x0, y0, x1, y1, text)`; coordinates in points embedded as rationals. -/
structure Word where
  x0 : ℚ
  y0 : ℚ
  x1 : ℚ
  y1 : ℚ
  text : String
deriving Repr, DecidableEq

/-- `72.0 / 2.54` points per centimeter, exact. -/
def ptPerCm : ℚ := 3600 / 127

/-- `_pt`: centimeters to points. -/
def pt (cm : ℚ) : ℚ := cm * ptPerCm

/-- Left edge of the PART NUMBER column band (`COORD_COLS_X["part_number"]`). -/
def partNumberBandX0 : ℚ := pt (38 / 10)

/-- Right edge of the PART NUMBER column band. -/
def partNumberBandX1 : ℚ := pt (79 / 10)

/-- `COORD_Y_SCAN_START`. -/
def coordYScanStart : ℚ := pt (38 / 10)

/-- `COORD_Y_TABLE_BOTTOM`. -/
def coordYTableBottom : ℚ := pt (254 / 10)

/-- Stable insertion of an element into a list sorted by a rational sort key:
later elements with an equal key land after earlier ones, matching the
stability of python `sorted`. -/
def insSorted (key : Word → ℚ × ℚ) (w : Word) : List Word → List Word
  | [] => [w]
  | v :: rest =>
    if (key w).1 < (key v).1 || ((key w).1 = (key v).1 && (key w).2 < (key v).2) then
      w :: v :: rest
    else v :: insSorted key w rest

/-- `sorted(words, key=lambda w: (w[1], w[0]))`: stable sort by `(y0, x0)`. -/
def sortByYX (ws : List Word) : List Word :=
  ws.foldl (fun acc w => insSorted (fun v => (v.y0, v.x0)) w acc) []

/-- Stable sort by `x0` alone (`sorted(words, key=lambda w: w[0])`). -/
def sortByX (ws : List Word) : List Word :=
  ws.foldl (fun acc w => insSorted (fun v => (v.x0, 0)) w acc) []

/-- Append a word to the last group, used by the line clustering. -/
def pushLastGroup (groups : List (ℚ × List Word)) (w : Word) : List (ℚ × List Word) :=
  match groups.getLast? with
  | some last => groups.dropLast ++ [(last.1, last.2 ++ [w])]
  | none => groups

/-- `_words_by_y`: cluster words into visual lines; a word starts a new group
when its `y0` differs from the FIRST `y0` of the current group by more than
`yTol`. -/
def wordsByY (ws : List Word) (yTol : ℚ) : List (ℚ × List Word) :=
  (sortByYX ws).foldl
    (fun groups w =>
      match groups.getLast? with
      | some last => if |w.y0 - last.1| > yTol then groups ++ [(w.y0, [w])] else pushLastGroup groups w
      | none => [(w.y0, [w])])
    []

/-- Collapse every whitespace run to a single space (`re.sub(r"\s+", " ", s)`). -/
def collapseWsAux : Bool → List Char → List Char
  | _, [] => []
  | prevWs, c :: rest =>
    if isWs c then
      if prevWs then collapseWsAux true rest else ' ' :: collapseWsAux true rest
    else c :: collapseWsAux false rest

/-- `re.sub(r"\s+", " ", s)`. -/
def collapseWs (l : List Char) : List Char := collapseWsAux false l

/-- `_join_words_line`: sort by `x0`, strip each text, drop blanks, join with
the separator, collapse whitespace and strip. -/
def joinWordsLine (ws : List Word) (sep : String) : String :=
  let parts := ((sortByX ws).map (fun w => pyStrip w.text)).filter (fun s => s ≠ "")
  pyStrip ⟨collapseWs (String.intercalate sep parts).data⟩

/-- The anchor text of one visual line:
`_join_words_line(grp, sep="").replace(" ", "").strip()`. -/
def anchorText (ws : List Word) : String :=
  pyStrip ⟨(joinWordsLine ws "").data.filter (fun c => c ≠ ' ')⟩

/-- Stable insertion by the first component, for the final
`sorted(anchors, key=lambda x: x[0])`. -/
def insSortedFst (a : ℚ × String) : List (ℚ × String) → List (ℚ × String)
  | [] => [a]
  | b :: rest => if a.1 < b.1 then a :: b :: rest else b :: insSortedFst a rest

/-- Stable sort of anchors by their y position. -/
def sortAnchors (l : List (ℚ × String)) : List (ℚ × String) :=
  l.foldl (fun acc a => insSortedFst a acc) []

/-- `_coords_part_number_anchors` from build_db.py: restrict words to the
PART NUMBER column band and the vertical scan range, cluster into lines,
keep lines whose joined text looks like a part-number cell, and drop a line
whose text equals the previous kept anchor when the vertical distance is at
most the deduplication tolerance of 3.0 points. -/
def coordsPartNumberAnchors (tableWords : List Word) : List (ℚ × String) :=
  let picked := tableWords.filter (fun w =>
    let cx := (w.x0 + w.x1) / 2
    let cy := (w.y0 + w.y1) / 2
    !(cx < partNumberBandX0) && !(cx > partNumberBandX1) &&
      !(cy < coordYScanStart) && !(cy > coordYTableBottom))
  sortAnchors ((wordsByY picked 2).foldl anchorStep [])
where
  /-- The loop body: keep a line whose joined text looks like a part-number
  cell, unless its text equals the previous kept anchor and the vertical
  distance is at most 3.0 points. -/
  anchorStep (anchors : List (ℚ × String)) (g : ℚ × List Word) : List (ℚ × String) :=
    let pn := anchorText g.2
    if !(looksLikePartNumberCell pn) then anchors
    else
      match anchors.getLast? with
      | some last =>
        if pn = last.2 && |g.1 - last.1| ≤ 3 then anchors else anchors ++ [(g.1, pn)]
      | none => anchors ++ [(g.1, pn)]

/-! ### Nomenclature level and hierarchy builder -/

/-- Split a character list at the newline character, keeping empty pieces,
with the same semantics as splitting a string on LF. -/
def splitLinesChars : List Char → List (List Char)
  | [] => [[]]
  | c :: rest =>
    if c = '\n' then [] :: splitLinesChars rest
    else
      match splitLinesChars rest with
      | [] => [[c]]
      | l :: ls => (c :: l) :: ls

/-- Split into lines at the newline character (the inputs in scope use only
the LF terminator, and the caller has already right-stripped the text). -/
def splitLines (s : String) : List String :=
  (splitLinesChars s.data).map (fun l => ⟨l⟩)

/-- Replace the first line with non-blank content, keeping every other line,
as the cleaning loop of `_nomenclature_level_and_clean` does. -/
def replaceFirstNonBlank (repl : String) : List String → List String
  | [] => []
  | ln :: rest =>
    if pyStrip ln ≠ "" then repl :: rest else ln :: replaceFirstNonBlank repl rest

/-- `_nomenclature_level_and_clean` from build_db.py: the level is the count
of leading dots on the first non-blank line (`NOM_LEADING_DOTS_RE`, which
requires at least one dot after optional whitespace), and the cleaned text
replaces that line by what follows the dots. -/
def nomLevelAndClean (nomenclature : String) : Nat × String :=
  let text := pyRstrip nomenclature
  if text = "" then (0, "")
  else
    let lines := (splitLines text).map pyRstrip
    let first := (lines.find? (fun ln => pyStrip ln ≠ "")).getD ""
    let afterWs := first.data.dropWhile isWs
    let dots := afterWs.takeWhile (· = '.')
    if dots = [] then (0, pyStrip text)
    else
      let rest : String := ⟨(afterWs.dropWhile (· = '.')).dropWhile isWs⟩
      (dots.length, pyStrip (String.intercalate "\n" (replaceFirstNonBlank rest lines)))

/-- One part row of the hierarchy builder: the assigned row id, the
nomenclature level, and the inserted `parent_part_id`
(`some 0` is the placeholder a gap leaves on the stack). -/
structure HierRow where
  partId : Nat
  level : Nat
  parent : Option Nat
deriving Repr, DecidableEq

/-- Parent selection of build_db: only link to `stack[level - 1]` when the
stack already has at least `level` entries. -/
def hierParent (stack : List Nat) (level : Nat) : Option Nat :=
  if 0 < level && decide (stack.length ≥ level) then stack.get? (level - 1) else none

/-- Stack update of build_db: extend with `0` placeholders up to the current
level (never backfilling with the current node), write the new row id at the
level position, and truncate everything below. -/
def hierPush (stack : List Nat) (level pid : Nat) : List Nat :=
  let st := if stack.length ≤ level then stack ++ List.replicate (level + 1 - stack.length) 0 else stack
  (st.set level pid).take (level + 1)

/-- The per-figure-group insert loop of `build_db`, for a run in which every
row is freshly inserted (sqlite assigns consecutive row ids starting at 1 in
a fresh scratch database). -/
def buildHierGo (pid : Nat) (stack : List Nat) : List String → List HierRow
  | [] => []
  | nom :: rest =>
    let level := (nomLevelAndClean nom).1
    let parent := hierParent stack level
    ⟨pid, level, parent⟩ :: buildHierGo (pid + 1) (hierPush stack level pid) rest

/-- Hierarchy reconstruction for one figure group. -/
def buildHier (noms : List String) : List HierRow :=
  buildHierGo 1 [] noms

/-! ### Relational store and the merge-ingest engine (`ingest_pdfs`) -/

/-- A row of the `documents` table as created by `_init_db` and
`ensure_schema` in build_db.py: the columns are exactly
`id, pdf_name, pdf_path, miner_dir, created_at`, with the UNIQUE constraint
on `pdf_name`. -/
structure DocRow where
  id : Nat
  pdfName : String
  pdfPath : String
  minerDir : String
  createdAt : String
deriving Repr, DecidableEq

/-- A row of the `pages` table (the surrogate id column is never read back
and is omitted). -/
structure PageRow where
  documentId : Nat
  pageNum : Nat
  figureCode : Option String
  figureLabel : Option String
  dateText : Option String
  pageToken : Option String
  rfText : Option String
deriving Repr, DecidableEq

/-- A row of the `parts` table. -/
structure PartRow where
  id : Nat
  documentId : Nat
  pageNum : Nat
  pageEnd : Nat
  extractor : String
  metaDataRaw : Option String
  figureCode : Option String
  figItemRaw : Option String
  figItemNo : Option String
  figItemNoSource : Option String
  notIllustrated : Nat
  partNumberCell : Option String
  partNumberExtracted : Option String
  partNumberCanonical : Option String
  pnCorrected : Nat
  pnMethod : Option String
  pnBestSimilarity : Option ℚ
  pnNeedsReview : Nat
  correctionNote : Option String
  rowKind : String
  nomLevel : Nat
  nomenclatureClean : Option String
  parentPartId : Option Nat
  attachedToPartId : Option Nat
  nomenclature : Option String
  effectivity : Option String
  unitsPerAssy : Option String
  minerTableImgPath : Option String
deriving Repr, DecidableEq

/-- A row of the `xrefs` table (id omitted). -/
structure XrefRow where
  partId : Nat
  kind : String
  target : String
deriving Repr, DecidableEq

/-- A row of the `aliases` table (id omitted). -/
structure AliasRow where
  partId : Nat
  aliasType : String
  aliasValue : String
deriving Repr, DecidableEq

/-- The live relational store. -/
structure Store where
  documents : List DocRow
  pages : List PageRow
  parts : List PartRow
  xrefs : List XrefRow
  aliases : List AliasRow
deriving Repr, DecidableEq

/-- The empty store. -/
def Store.empty : Store := ⟨[], [], [], [], []⟩

/-- One extracted document as read back from the scratch database built by
`build_db` (rows are returned ordered by id / page number, as the
`ORDER BY` clauses of `ingest_pdfs` request). -/
structure SrcDoc where
  pdfName : String
  pdfPath : String
  minerDir : String
  createdAt : String
  pages : List PageRow
  parts : List PartRow
  xrefs : List XrefRow
  aliases : List AliasRow
deriving Repr, DecidableEq

/-- `DELETE FROM documents WHERE id = ?` with the `ON DELETE CASCADE`
chain: pages and parts of the document go, and xrefs and aliases of the
removed parts go with them. -/
def deleteDocument (s : Store) (docId : Nat) : Store :=
  let removedPartIds := (s.parts.filter (fun p => p.documentId = docId)).map (·.id)
  { documents := s.documents.filter (fun d => d.id ≠ docId)
    pages := s.pages.filter (fun p => p.documentId ≠ docId)
    parts := s.parts.filter (fun p => p.documentId ≠ docId)
    xrefs := s.xrefs.filter (fun x => !(removedPartIds.contains x.partId))
    aliases := s.aliases.filter (fun a => !(removedPartIds.contains a.partId)) }

/-- sqlite row id assignment for `INTEGER PRIMARY KEY`: one more than the
largest id currently in the table. -/
def nextDocId (s : Store) : Nat :=
  (s.documents.foldl (fun m r => max m r.id) 0) + 1

/-- `SELECT COALESCE(MAX(id), 0) FROM parts`. -/
def maxPartId (s : Store) : Nat :=
  s.parts.foldl (fun m r => max m r.id) 0

/-- The part id remapping of `ingest_pdfs`: the source parts, enumerated from
1 in id order, are assigned `maxPartId + index`. -/
def partIdMap (base : Nat) (srcParts : List PartRow) : List (Nat × Nat) :=
  (srcParts.enumFrom 1).map (fun p => (p.2.id, base + p.1))

/-- `dict.get` over the id map. -/
def mapLookup (m : List (Nat × Nat)) (k : Nat) : Option Nat :=
  (m.find? (fun p => p.1 = k)).map Prod.snd

/-- The replace step of `ingest_pdfs`:
`SELECT id FROM documents WHERE pdf_name = ?` (at most one row exists under
the UNIQUE constraint) followed by the cascading delete when a row is
found. -/
def deleteExistingByName (live : Store) (name : String) : Store :=
  match live.documents.find? (fun row => row.pdfName = name) with
  | some ex => deleteDocument live ex.id
  | none => live

/-- The per-document merge body of `ingest_pdfs`: delete any existing
document with the same `pdf_name` (the sqlite UNIQUE constraint guarantees
at most one), insert the document row, copy its pages, copy its parts with
remapped ids (a parent or attached reference whose source id is absent from
the map becomes NULL), and copy xrefs and aliases whose part id maps. -/
def mergeDoc (live : Store) (d : SrcDoc) : Store :=
  let live : Store := deleteExistingByName live d.pdfName
  let dstDocId := nextDocId live
  let live : Store := { live with
    documents := live.documents ++ [⟨dstDocId, d.pdfName, d.pdfPath, d.minerDir, d.createdAt⟩] }
  let live : Store := { live with
    pages := live.pages ++ d.pages.map (fun p => { p with documentId := dstDocId }) }
  let idMap := partIdMap (maxPartId live) d.parts
  let live : Store := { live with
    parts := live.parts ++ d.parts.map (fun p =>
      { p with
        id := (mapLookup idMap p.id).getD 0
        documentId := dstDocId
        parentPartId := p.parentPartId.bind (mapLookup idMap)
        attachedToPartId := p.attachedToPartId.bind (mapLookup idMap) }) }
  let live : Store := { live with
    xrefs := live.xrefs ++ (d.xrefs.filterMap (fun x =>
      (mapLookup idMap x.partId).map (fun pid => { x with partId := pid }))) }
  { live with
    aliases := live.aliases ++ (d.aliases.filterMap (fun a =>
      (mapLookup idMap a.partId).map (fun pid => { a with partId := pid }))) }

/-- The merge loop of `ingest_pdfs` with its transactional behaviour made
explicit.  The loop handles one source document at a time and issues
`conn.commit()` at the end of each document, so the committed store advances
one document at a time.  A failure while document `i` is being merged leaves
an open transaction whose writes (`inFlight`, an arbitrary partial prefix of
the document's statements) are never committed: the caller's rollback
discards them, and the loop stops with the error propagating. -/
def ingestRun (inFlight : Store → SrcDoc → Store) (failAt : Nat) :
    Nat → Store → List SrcDoc → Store × Bool
  | _, committed, [] => (committed, false)
  | i, committed, d :: rest =>
    if i = failAt then
      let _pending := inFlight committed d
      (committed, true)
    else ingestRun inFlight failAt (i + 1) (mergeDoc committed d) rest

/-- `ingest_pdfs` over a batch, starting from the live store, with a fault
injected while document `failAt` (0-based) is in flight; a `failAt` at or
beyond the batch length means no fault. -/
def ingestPdfs (inFlight : Store → SrcDoc → Store) (failAt : Nat)
    (live : Store) (docs : List SrcDoc) : Store × Bool :=
  ingestRun inFlight failAt 0 live docs

/-! ### Scan engine state transition (`ScanService._scan_and_ingest`) -/

/-- A row of the `scan_state` table. -/
structure ScanStateRow where
  relativePath : String
  size : Int
  mtime : ℚ
  updatedAt : String
deriving Repr, DecidableEq

/-- Database state as the scan service sees it. -/
structure ScanDb where
  store : Store
  scanState : List ScanStateRow
deriving Repr, DecidableEq

/-- One file found on disk during the walk: relative path, size, mtime. -/
structure DiskEntry where
  relPath : String
  size : Int
  mtime : ℚ
deriving Repr, DecidableEq

/-- The scan summary dictionary built by `_scan_and_ingest` (the ingest
counters are carried separately by the ingest call itself; the dictionary
has no key reporting deletions because the code performs none). -/
structure ScanSummary where
  path : String
  scannedFiles : Nat
  changedFiles : Nat
deriving Repr, DecidableEq

/-- The `scan_state` prefix filter:
`relative_path = ? OR relative_path LIKE 'path/%'`. -/
def scanStateUnderPath (rows : List ScanStateRow) (path : String) : List ScanStateRow :=
  if path = "" then rows
  else rows.filter (fun r => r.relativePath = path || (path ++ "/").isPrefixOf r.relativePath)

/-- The change test of `_scan_and_ingest`: a disk entry is changed when it
has no persisted row, its size differs, or its mtime differs by more than
`1e-9`. -/
def entryChanged (prev : List ScanStateRow) (e : DiskEntry) : Bool :=
  match prev.find? (fun r => r.relativePath = e.relPath) with
  | none => true
  | some old => old.size ≠ e.size || |old.mtime - e.mtime| > mkRat 1 1000000000

/-- `INSERT ... ON CONFLICT(relative_path) DO UPDATE`: replace the matching
row's size, mtime and timestamp, or append a fresh row. -/
def upsertScanState (rows : List ScanStateRow) (e : DiskEntry) (nowIso : String) :
    List ScanStateRow :=
  if rows.any (fun r => r.relativePath = e.relPath) then
    rows.map (fun r =>
      if r.relativePath = e.relPath then
        { r with size := e.size, mtime := e.mtime, updatedAt := nowIso }
      else r)
  else rows ++ [⟨e.relPath, e.size, e.mtime, nowIso⟩]

/-- `ScanService._scan_and_ingest` from services/scanner.py, as a state
transition on the database: read the persisted rows under the path, compute
the changed entries, ingest them (the ingest call is the external
`ingest_pdfs` entry point, a parameter here) when there are any, then upsert
`scan_state` for every entry found on disk.  No statement deletes a
`documents` or `scan_state` row. -/
def scanAndIngest (ingestFn : ScanDb → List String → ScanDb)
    (db : ScanDb) (path : String) (disk : List DiskEntry) (nowIso : String) :
    ScanDb × ScanSummary :=
  let prev := scanStateUnderPath db.scanState path
  let changed := disk.filter (entryChanged prev)
  let db := if changed.isEmpty then db else ingestFn db (changed.map (·.relPath))
  let db := { db with scanState := disk.foldl (fun rows e => upsertScanState rows e nowIso) db.scanState }
  (db, ⟨path, disk.length, changed.length⟩)

/-! ### Schema creation (`ensure_schema`) -/

/-- The aspects of the sqlite schema state that `ensure_schema` can touch:
which tables exist, which UNIQUE constraint the `documents` table carries,
whether it has a `relative_path` column, and the stored document rows
(kept as `(pdf_name, relative_path)` pairs). -/
structure DbSchema where
  hasDocuments : Bool
  docUniqueCols : List String
  docHasRelativePath : Bool
  docRows : List (String × String)
  hasPages : Bool
  hasParts : Bool
  hasXrefs : Bool
  hasAliases : Bool
  hasScanState : Bool
  hasRelPathUniqueIndex : Bool
deriving Repr, DecidableEq

/-- `ensure_schema` from build_db.py: a single `executescript` of
`CREATE TABLE IF NOT EXISTS` and `CREATE INDEX IF NOT EXISTS` statements.
A fresh `documents` table is created with the UNIQUE constraint on
`pdf_name` and no `relative_path` column; an existing table is left exactly
as it is.  The script creates no `scan_state` table, no unique index on a
`relative_path` column, runs no migration, and never raises on the existing
contents, so it always returns successfully. -/
def ensureSchema (s : DbSchema) : Except String DbSchema :=
  let s :=
    if s.hasDocuments then s
    else { s with
      hasDocuments := true
      docUniqueCols := ["pdf_name"]
      docHasRelativePath := false
      docRows := [] }
  .ok { s with hasPages := true, hasParts := true, hasXrefs := true, hasAliases := true }

/-! ### Upload promotion with backup and restore (`ImportService`) -/

/-- Filesystem state: contents by path. -/
def FS := String → Option String

/-- Write contents at a path. -/
def fsSet (fs : FS) (p : String) (b : String) : FS :=
  fun q => if q = p then some b else fs q

/-- Remove a path (`Path.unlink(missing_ok=True)`). -/
def fsRemove (fs : FS) (p : String) : FS :=
  fun q => if q = p then none else fs q

/-- `Path.replace(dst)` (an atomic same-filesystem rename; in the flows
modelled here the source always exists, so the missing-source error branch
never runs). -/
def fsRename (fs : FS) (src dst : String) : FS :=
  match fs src with
  | some b => fsSet (fsRemove fs src) dst b
  | none => fs

/-- `ImportService._promote_uploaded_file`: when the final path is occupied,
rename the occupant to the backup path first, then rename the staged file
into place; return the backup path when one was made. -/
def promoteUploadedFile (fs : FS) (staged finalPath backup : String) : FS × Option String :=
  if (fs finalPath).isSome then
    (fsRename (fsRename fs finalPath backup) staged finalPath, some backup)
  else (fsRename fs staged finalPath, none)

/-- `ImportService._restore_backup_file`: if the backup exists, rename it
back over the final path. -/
def restoreBackupFile (fs : FS) (backup finalPath : String) : FS :=
  if (fs backup).isSome then fsRename fs backup finalPath else fs

/-- The filesystem effect of `ImportService._run_one` after validation:
promote, then run ingestion; on success delete the backup; on failure
unlink the staged path, unlink the newly promoted file, and restore the
backup.  `ingestOk` abstracts whether `ingest_pdfs` returns or raises. -/
def runOneFs (fs : FS) (staged finalPath backup : String) (ingestOk : Bool) : FS :=
  let pr := promoteUploadedFile fs staged finalPath backup
  let fs1 := pr.1
  if ingestOk then
    match pr.2 with
    | some b => fsRemove fs1 b
    | none => fs1
  else
    let fs2 := fsRemove (fsRemove fs1 staged) finalPath
    match pr.2 with
    | some b => restoreBackupFile fs2 b finalPath
    | none => fs2

/-! ## Theorems -/

/-- C10: for an empty or whitespace-only raw part-number cell,
canonicalization short-circuits before the exact, loose and fuzzy policy and
returns the empty canonical value with `corrected = false`,
`method = "empty"` and `needs_review = false`, for every candidate pool and
every similarity function — the cell is never matched against candidates. -/
theorem empty_cell_short_circuits (sim : String → String → ℚ)
    (candidates candidatesSet : List String) (byLoose : List (String × String))
    (raw : String) (h : pyStrip raw = "") :
    canonicalizePartNumberIndexed sim candidates candidatesSet byLoose raw =
      ⟨"", false, "empty", none, false⟩ := by
  unfold canonicalizePartNumberIndexed
  simp [h]

/-- Witness for C10 at the whitespace-only cell value. -/
theorem empty_cell_short_circuits_witness :
    pyStrip "   " = "" ∧
      canonicalizePartNumberIndexed (fun _ _ => 0) ["AOB1"] ["AOB1"] [("AOB1", "AOB1")] "   " =
        ⟨"", false, "empty", none, false⟩ :=
  ⟨by decide,
    empty_cell_short_circuits (fun _ _ => 0) ["AOB1"] ["AOB1"] [("AOB1", "AOB1")] "   " (by decide)⟩

/-- C7 counterexample: the loose step applies the aggressive bidirectional
normalization `_norm_loose` to the cell value itself.  For the raw cell
"A0B1" against the candidate "AOB1" the code accepts a loose match (the
letter-context 0 to O swap was applied to the cell value), although the
digit-context-only cell normalization of the raw value differs from the
candidate loose key, so under the claimed policy no loose match exists. -/
theorem loose_norm_cex :
    canonicalizePartNumberIndexed (fun _ _ => 0) ["AOB1"] ["AOB1"] [("AOB1", "AOB1")] "A0B1" =
        ⟨"AOB1", false, "loose", none, false⟩ ∧
      normLooseCell (pyUpper "A0B1") ≠ normLoose "AOB1" ∧
      normLoose (pyUpper "A0B1") = normLoose "AOB1" := by
  decide

/-- C2 code evaluation: the `documents` table of build_db.py has no
`relative_path` column and carries its UNIQUE constraint on `pdf_name`, and
`ingest_pdfs` replaces by `pdf_name`.  Merging the file `dir/b/same.pdf`
into a store already holding `dir/a/same.pdf` therefore replaces it: one
document row remains and the first path is gone, so two files with the same
name in different directories do NOT coexist. -/
theorem documents_replaced_by_pdf_name :
    (mergeDoc (mergeDoc Store.empty ⟨"same.pdf", "dir/a/same.pdf", "m", "t1", [], [], [], []⟩)
        ⟨"same.pdf", "dir/b/same.pdf", "m", "t2", [], [], [], []⟩).documents =
      [⟨1, "same.pdf", "dir/b/same.pdf", "m", "t2"⟩] := by
  decide

/-- C5 code evaluation: with a persisted Document and ScanState row for
`engine/stale.pdf` and the file gone from disk, a scan of `engine` leaves
the database completely unchanged for every possible ingest routine — the
stale Document row and its ScanState row are NOT deleted (and the summary
has no deletion counters to report). -/
theorem scan_keeps_stale_rows (ingestFn : ScanDb → List String → ScanDb) :
    scanAndIngest ingestFn
        ⟨{ Store.empty with documents := [⟨1, "stale.pdf", "engine/stale.pdf", "m", "t"⟩] },
          [⟨"engine/stale.pdf", 123, 123, "t0"⟩]⟩
        "engine" [] "now" =
      (⟨{ Store.empty with documents := [⟨1, "stale.pdf", "engine/stale.pdf", "m", "t"⟩] },
          [⟨"engine/stale.pdf", 123, 123, "t0"⟩]⟩,
        ⟨"engine", 0, 0⟩) := by
  rfl

/-- Witness applying the C5 evaluation to a concrete ingest routine. -/
theorem scan_keeps_stale_rows_witness :
    scanAndIngest (fun db _ => db)
        ⟨{ Store.empty with documents := [⟨1, "stale.pdf", "engine/stale.pdf", "m", "t"⟩] },
          [⟨"engine/stale.pdf", 123, 123, "t0"⟩]⟩
        "engine" [] "now" =
      (⟨{ Store.empty with documents := [⟨1, "stale.pdf", "engine/stale.pdf", "m", "t"⟩] },
          [⟨"engine/stale.pdf", 123, 123, "t0"⟩]⟩,
        ⟨"engine", 0, 0⟩) :=
  scan_keeps_stale_rows (fun db _ => db)

/-- C8 code evaluation: `ensure_schema` of build_db.py is pure
create-if-missing.  Run against a legacy store whose `documents` table has
the unique-on-filename constraint and already contains two rows with the
SAME relative path, it returns successfully, preserves the rows, leaves the
`pdf_name` UNIQUE constraint in place, adds no unique index on
`relative_path`, performs no migration, and creates no `scan_state` table —
it does not fail fast as the claim requires.  Running it again on the result
changes nothing (the create-if-missing part of the claim does hold). -/
theorem ensure_schema_no_migration :
    ensureSchema
        ⟨true, ["pdf_name"], true, [("a.pdf", "dup/a.pdf"), ("a-copy.pdf", "dup/a.pdf")],
          false, false, false, false, false, false⟩ =
      .ok ⟨true, ["pdf_name"], true, [("a.pdf", "dup/a.pdf"), ("a-copy.pdf", "dup/a.pdf")],
          true, true, true, true, false, false⟩ ∧
    ensureSchema
        ⟨true, ["pdf_name"], true, [("a.pdf", "dup/a.pdf"), ("a-copy.pdf", "dup/a.pdf")],
          true, true, true, true, false, false⟩ =
      .ok ⟨true, ["pdf_name"], true, [("a.pdf", "dup/a.pdf"), ("a-copy.pdf", "dup/a.pdf")],
          true, true, true, true, false, false⟩ :=
  ⟨rfl, rfl⟩

/-- C4 counterexample: after the sequence jumps from level 0 directly to a
level-2 row, a LATER level-2 row in the same figure group is inserted with
`parent_part_id = 0` (the placeholder left on the stack), not with no
parent, contradicting the claim that no parent is assigned to any later
level-2 row until a level-1 row appears. -/
theorem hierarchy_gap_cex :
    (buildHier ["ITEM A", "..SUBSUB C", "..SUBSUB D"]).map HierRow.parent =
        [none, none, some 0] ∧
      (some 0 : Option Nat) ≠ none := by
  decide

/-- C1: once the exact and loose steps have failed, the result is governed
by the best similarity over all candidates.  Best ratio at least 0.92:
the best candidate with `corrected = true`, `method = "fuzzy"`,
`needs_review = false`; best ratio in the interval from 0.90 up to but
excluding 0.92: the best candidate with `corrected = true`,
`method = "fuzzy_low"`, `needs_review = true`; otherwise (including the case
of no improving candidate at all): the upper-cased raw value unmodified,
`corrected = false`, `method = "unverified"`, `needs_review = true`. -/
theorem fuzzy_threshold_policy (sim : String → String → ℚ)
    (candidates candidatesSet : List String) (byLoose : List (String × String))
    (raw : String)
    (hne : pyStrip raw ≠ "")
    (hexact : pyUpper (pyStrip raw) ∉ candidatesSet)
    (hloose : lookupLoose byLoose (normLoose (pyUpper (pyStrip raw))) = none) :
    (∀ b r, bestCand sim candidates (normLoose (pyUpper (pyStrip raw))) = (some b, r) →
      b ≠ "" →
      ((mkRat 92 100 ≤ r →
        canonicalizePartNumberIndexed sim candidates candidatesSet byLoose raw =
          ⟨b, true, "fuzzy", some r, false⟩) ∧
       (mkRat 90 100 ≤ r → r < mkRat 92 100 →
        canonicalizePartNumberIndexed sim candidates candidatesSet byLoose raw =
          ⟨b, true, "fuzzy_low", some r, true⟩) ∧
       (r < mkRat 90 100 →
        canonicalizePartNumberIndexed sim candidates candidatesSet byLoose raw =
          ⟨pyUpper (pyStrip raw), false, "unverified", none, true⟩))) ∧
    (∀ r, bestCand sim candidates (normLoose (pyUpper (pyStrip raw))) = (none, r) →
      canonicalizePartNumberIndexed sim candidates candidatesSet byLoose raw =
        ⟨pyUpper (pyStrip raw), false, "unverified", none, true⟩) := by
  have base :
      canonicalizePartNumberIndexed sim candidates candidatesSet byLoose raw =
        (match bestCand sim candidates (normLoose (pyUpper (pyStrip raw))) with
          | (some best, r) =>
            if best ≠ "" && r ≥ mkRat 92 100 then ⟨best, true, "fuzzy", some r, false⟩
            else if best ≠ "" && r ≥ mkRat 90 100 then ⟨best, true, "fuzzy_low", some r, true⟩
            else ⟨pyUpper (pyStrip raw), false, "unverified", none, true⟩
          | (none, _) => ⟨pyUpper (pyStrip raw), false, "unverified", none, true⟩) := by
    simp only [canonicalizePartNumberIndexed, hloose]
    rw [if_neg hne, if_neg hexact]
    simp
  refine ⟨fun b r hb hbne => ?_, fun r hb => ?_⟩
  · rw [base, hb]
    refine ⟨fun h92 => ?_, fun h90 h92 => ?_, fun h90 => ?_⟩
    · simp [hbne, ge_iff_le, h92]
    · have h92n : ¬ mkRat 92 100 ≤ r := not_le.mpr h92
      simp [hbne, ge_iff_le, h90, h92n]
    · have h90n : ¬ mkRat 90 100 ≤ r := not_le.mpr h90
      have h92n : ¬ mkRat 92 100 ≤ r := not_le.mpr (h90.trans_le (by norm_num [Rat.mkRat_eq_div]))
      simp [ge_iff_le, h90n, h92n]
  · rw [base, hb]

/-- Witness for C1 at the three similarity levels named by the claim: a
best ratio of 0.93 is accepted without review, 0.91 accepted but flagged,
and 0.80 leaves the input unmodified and flagged.  The candidate pool is
the single candidate ABC-1 and the raw cell AXC-1, which has no exact and
no loose match. -/
theorem fuzzy_threshold_policy_witness :
    canonicalizePartNumberIndexed (fun _ _ => mkRat 93 100) ["ABC-1"] ["ABC-1"]
        [("ABC-1", "ABC-1")] "AXC-1" =
      ⟨"ABC-1", true, "fuzzy", some (mkRat 93 100), false⟩ ∧
    canonicalizePartNumberIndexed (fun _ _ => mkRat 91 100) ["ABC-1"] ["ABC-1"]
        [("ABC-1", "ABC-1")] "AXC-1" =
      ⟨"ABC-1", true, "fuzzy_low", some (mkRat 91 100), true⟩ ∧
    canonicalizePartNumberIndexed (fun _ _ => mkRat 80 100) ["ABC-1"] ["ABC-1"]
        [("ABC-1", "ABC-1")] "AXC-1" =
      ⟨"AXC-1", false, "unverified", none, true⟩ :=
  ⟨((fuzzy_threshold_policy (fun _ _ => mkRat 93 100) ["ABC-1"] ["ABC-1"] [("ABC-1", "ABC-1")]
      "AXC-1" (by decide) (by decide) (by decide)).1 "ABC-1" (mkRat 93 100)
      (by decide) (by decide)).1 (by decide),
   ((fuzzy_threshold_policy (fun _ _ => mkRat 91 100) ["ABC-1"] ["ABC-1"] [("ABC-1", "ABC-1")]
      "AXC-1" (by decide) (by decide) (by decide)).1 "ABC-1" (mkRat 91 100)
      (by decide) (by decide)).2.1 (by decide) (by decide),
   ((fuzzy_threshold_policy (fun _ _ => mkRat 80 100) ["ABC-1"] ["ABC-1"] [("ABC-1", "ABC-1")]
      "AXC-1" (by decide) (by decide) (by decide)).1 "ABC-1" (mkRat 80 100)
      (by decide) (by decide)).2.2 (by decide)⟩

/-- C7 amended: canonicalization tries matches in order before any fuzzy
scoring.  (1) A raw cell whose upper-cased form is in the candidate set is
returned unmodified with `method = "exact"` and `corrected = false`.
(2) Otherwise the cell value is normalized with the SAME aggressive loose
normalization used for candidates (whitespace removal, dash unification,
digit-context O to 0 AND letter-context 0 to O); when that key matches a
candidate loose key, the matched candidate spelling is returned with
`method = "loose"` and `corrected = false`.  The digit-context-only cell
normalization (`_norm_loose_cell`) is used for deciding whether a cell
looks like a part number, not inside the canonicalization matching. -/
theorem exact_then_loose_policy (sim : String → String → ℚ)
    (candidates candidatesSet : List String) (byLoose : List (String × String))
    (raw : String) (hne : pyStrip raw ≠ "") :
    (pyUpper (pyStrip raw) ∈ candidatesSet →
      canonicalizePartNumberIndexed sim candidates candidatesSet byLoose raw =
        ⟨pyUpper (pyStrip raw), false, "exact", none, false⟩) ∧
    (∀ m, pyUpper (pyStrip raw) ∉ candidatesSet →
      lookupLoose byLoose (normLoose (pyUpper (pyStrip raw))) = some m → m ≠ "" →
      canonicalizePartNumberIndexed sim candidates candidatesSet byLoose raw =
        ⟨m, false, "loose", none, false⟩) := by
  constructor
  · intro hmem
    simp only [canonicalizePartNumberIndexed]
    rw [if_neg hne, if_pos hmem]
  · intro m hmem hl hm
    simp only [canonicalizePartNumberIndexed, hl]
    rw [if_neg hne, if_neg hmem]
    simp [hm]

/-- Witness for C7 (amended): one exact match, and the loose match of the
counterexample pair where only the aggressive normalization of the cell
value produces the match. -/
theorem exact_then_loose_policy_witness :
    canonicalizePartNumberIndexed (fun _ _ => 0) ["ABC-1"] ["ABC-1"]
        [("ABC-1", "ABC-1")] "abc-1" =
      ⟨"ABC-1", false, "exact", none, false⟩ ∧
    canonicalizePartNumberIndexed (fun _ _ => 0) ["AOB1"] ["AOB1"]
        [("AOB1", "AOB1")] "A0B1" =
      ⟨"AOB1", false, "loose", none, false⟩ :=
  ⟨(exact_then_loose_policy (fun _ _ => 0) ["ABC-1"] ["ABC-1"] [("ABC-1", "ABC-1")]
      "abc-1" (by decide)).1 (by decide),
   (exact_then_loose_policy (fun _ _ => 0) ["AOB1"] ["AOB1"] [("AOB1", "AOB1")]
      "A0B1" (by decide)).2 "AOB1" (by decide) (by decide) (by decide)⟩

/-- C6: promotion is rollback-safe.  With a staged upload and an existing
file at the target path (and a fresh backup name), a failed ingestion leaves
the original bytes back at the target path, no backup artifact and no staged
file; a successful ingestion leaves the new bytes at the target path and
deletes the backup. -/
theorem promotion_rollback (fs : FS) (staged finalPath backup bNew bOld : String)
    (hstaged : fs staged = some bNew) (hfinal : fs finalPath = some bOld)
    (hsf : staged ≠ finalPath) (hbs : backup ≠ staged) (hbf : backup ≠ finalPath) :
    (runOneFs fs staged finalPath backup false) finalPath = some bOld ∧
    (runOneFs fs staged finalPath backup false) backup = none ∧
    (runOneFs fs staged finalPath backup false) staged = none ∧
    (runOneFs fs staged finalPath backup true) finalPath = some bNew ∧
    (runOneFs fs staged finalPath backup true) backup = none := by
  have hsb : staged ≠ backup := Ne.symm hbs
  have hfb : finalPath ≠ backup := Ne.symm hbf
  have hfs' : finalPath ≠ staged := Ne.symm hsf
  have e1 : fsRename fs finalPath backup = fsSet (fsRemove fs finalPath) backup bOld := by
    unfold fsRename
    rw [hfinal]
  have e2 : (fsSet (fsRemove fs finalPath) backup bOld) staged = some bNew := by
    simp [fsSet, fsRemove, hsb, hsf, hstaged]
  have e3 : fsRename (fsSet (fsRemove fs finalPath) backup bOld) staged finalPath =
      fsSet (fsRemove (fsSet (fsRemove fs finalPath) backup bOld) staged) finalPath bNew := by
    unfold fsRename
    rw [e2]
  set g2 := fsSet (fsRemove (fsSet (fsRemove fs finalPath) backup bOld) staged) finalPath bNew
    with hg2
  have ep : promoteUploadedFile fs staged finalPath backup = (g2, some backup) := by
    unfold promoteUploadedFile
    rw [hfinal]
    simp only [Option.isSome_some, if_true]
    rw [e1, e3]
  have hg2final : g2 finalPath = some bNew := by simp [hg2, fsSet]
  have hg2backup : g2 backup = some bOld := by simp [hg2, fsSet, fsRemove, hbf, hbs]
  have hg2staged : g2 staged = none := by simp [hg2, fsSet, fsRemove, hsf]
  set fs2 := fsRemove (fsRemove g2 staged) finalPath with hfs2
  have hfs2backup : fs2 backup = some bOld := by
    simp [hfs2, fsRemove, hbf, hbs, hg2backup]
  have hfs2staged : fs2 staged = none := by
    simp [hfs2, fsRemove, hsf, hg2staged]
  have er : restoreBackupFile fs2 backup finalPath =
      fsSet (fsRemove fs2 backup) finalPath bOld := by
    unfold restoreBackupFile fsRename
    rw [hfs2backup]
    simp
  refine ⟨?_, ?_, ?_, ?_, ?_⟩
  · show (runOneFs fs staged finalPath backup false) finalPath = some bOld
    unfold runOneFs
    rw [ep]
    simp only []
    rw [← hfs2, er]
    simp [fsSet]
  · unfold runOneFs
    rw [ep]
    simp only []
    rw [← hfs2, er]
    simp [fsSet, fsRemove, hbf]
  · unfold runOneFs
    rw [ep]
    simp only []
    rw [← hfs2, er]
    simp [fsSet, fsRemove, hsf, hsb, hfs2staged]
  · unfold runOneFs
    rw [ep]
    simp only []
    simp [fsRemove, hfb, hg2final]
  · unfold runOneFs
    rw [ep]
    simp only []
    simp [fsRemove]

/-- Witness for C6 on a concrete filesystem with an occupied target path. -/
theorem promotion_rollback_witness :
    ((fun q => if q = "up/stage" then some "NEW"
        else if q = "pdf/a.pdf" then some "OLD" else none) : FS) "up/stage" = some "NEW" ∧
    (runOneFs
        (fun q => if q = "up/stage" then some "NEW"
          else if q = "pdf/a.pdf" then some "OLD" else none)
        "up/stage" "pdf/a.pdf" "up/.a.pdf.bak" false) "pdf/a.pdf" = some "OLD" :=
  ⟨by decide,
    (promotion_rollback
      (fun q => if q = "up/stage" then some "NEW"
        else if q = "pdf/a.pdf" then some "OLD" else none)
      "up/stage" "pdf/a.pdf" "up/.a.pdf.bak" "NEW" "OLD"
      (by decide) (by decide) (by decide) (by decide) (by decide)).1⟩

/-! ### Lemmas for the merge engine -/

/-- Pairwise-distinct document ids, the sqlite primary-key invariant of the
live store. -/
def docIdsNodup (s : Store) : Prop :=
  (s.documents.map DocRow.id).Nodup

/-- The max fold never drops below its accumulator. -/
theorem le_foldl_max (l : List DocRow) (acc : Nat) :
    acc ≤ l.foldl (fun m x => max m x.id) acc := by
  induction l generalizing acc with
  | nil => exact le_refl _
  | cons a t ih => exact le_trans (le_max_left acc a.id) (ih _)

/-- Every member id is bounded by the max fold. -/
theorem id_le_foldl_max (l : List DocRow) (acc : Nat) (r : DocRow) (hr : r ∈ l) :
    r.id ≤ l.foldl (fun m x => max m x.id) acc := by
  induction l generalizing acc with
  | nil => cases hr
  | cons a t ih =>
    rcases List.mem_cons.mp hr with h | h
    · subst h
      exact le_trans (le_max_right acc r.id) (le_foldl_max t _)
    · exact ih _ h

/-- The freshly assigned document id exceeds every id in the store. -/
theorem nextDocId_gt (s : Store) (r : DocRow) (hr : r ∈ s.documents) :
    r.id < nextDocId s :=
  Nat.lt_succ_of_le (id_le_foldl_max _ _ _ hr)

/-- The documents table after one merge: the possibly-delete step, then the
new row appended with the freshly assigned id. -/
theorem mergeDoc_documents (s : Store) (d : SrcDoc) :
    (mergeDoc s d).documents =
      (deleteExistingByName s d.pdfName).documents ++
        [⟨nextDocId (deleteExistingByName s d.pdfName),
          d.pdfName, d.pdfPath, d.minerDir, d.createdAt⟩] := rfl

/-- Cascading delete keeps the id-uniqueness invariant. -/
theorem deleteDocument_nodup (s : Store) (docId : Nat) (h : docIdsNodup s) :
    docIdsNodup (deleteDocument s docId) :=
  ((List.filter_sublist s.documents).map DocRow.id).nodup h

/-- Rows surviving the cascading delete were rows of the store. -/
theorem deleteDocument_mem (s : Store) (docId : Nat) (r : DocRow)
    (hr : r ∈ (deleteDocument s docId).documents) : r ∈ s.documents :=
  (List.mem_filter.mp hr).1

/-- The replace step keeps the id-uniqueness invariant. -/
theorem deleteExistingByName_nodup (s : Store) (name : String) (h : docIdsNodup s) :
    docIdsNodup (deleteExistingByName s name) := by
  unfold deleteExistingByName
  cases s.documents.find? (fun row => row.pdfName = name) with
  | none => exact h
  | some ex => exact deleteDocument_nodup s ex.id h

/-- Rows surviving the replace step were rows of the store. -/
theorem deleteExistingByName_mem (s : Store) (name : String) (r : DocRow)
    (hr : r ∈ (deleteExistingByName s name).documents) : r ∈ s.documents := by
  unfold deleteExistingByName at hr
  revert hr
  cases s.documents.find? (fun row => row.pdfName = name) with
  | none => exact id
  | some ex => exact deleteDocument_mem s ex.id r

/-- Merging one document keeps the id-uniqueness invariant. -/
theorem mergeDoc_nodup (s : Store) (d : SrcDoc) (h : docIdsNodup s) :
    docIdsNodup (mergeDoc s d) := by
  unfold docIdsNodup
  rw [mergeDoc_documents, List.map_append]
  rw [List.nodup_append]
  refine ⟨deleteExistingByName_nodup s d.pdfName h, List.nodup_singleton _, ?_⟩
  intro a ha hb
  rcases List.mem_map.mp ha with ⟨r, hr, hra⟩
  have hb' : a = nextDocId (deleteExistingByName s d.pdfName) := by
    simpa using hb
  subst hra
  exact Nat.ne_of_lt (nextDocId_gt _ r hr) hb'

/-- Merging a document whose name differs from `n` leaves the set of
document rows named `n` untouched (id uniqueness rules out a collateral
delete). -/
theorem mergeDoc_filter_other (s : Store) (d : SrcDoc) (n : String)
    (hn : n ≠ d.pdfName) (h : docIdsNodup s) :
    (mergeDoc s d).documents.filter (fun row => row.pdfName = n) =
      s.documents.filter (fun row => row.pdfName = n) := by
  rw [mergeDoc_documents, List.filter_append]
  have hnew : ([⟨nextDocId (deleteExistingByName s d.pdfName),
      d.pdfName, d.pdfPath, d.minerDir, d.createdAt⟩] :
        List DocRow).filter (fun row => row.pdfName = n) = [] := by
    simp [Ne.symm hn]
  rw [hnew, List.append_nil]
  unfold deleteExistingByName
  cases hfind : s.documents.find? (fun row => row.pdfName = d.pdfName) with
  | none => rfl
  | some ex =>
    have hexmem : ex ∈ s.documents := List.mem_of_find?_eq_some hfind
    have hexname : ex.pdfName = d.pdfName := by
      have := List.find?_some hfind
      simpa using this
    unfold deleteDocument
    simp only [List.filter_filter]
    refine List.filter_congr ?_
    intro r hr
    by_cases hrn : r.pdfName = n
    · have hrid : r.id ≠ ex.id := by
        intro hid
        have hre : r = ex := List.inj_on_of_nodup_map h hr hexmem hid
        exact hn (by rw [← hrn, hre, hexname])
      simp [hrn, hrid]
    · simp [hrn]

/-- Folding merges keeps the id-uniqueness invariant. -/
theorem foldl_mergeDoc_nodup (docs : List SrcDoc) (live : Store) (h : docIdsNodup live) :
    docIdsNodup (docs.foldl mergeDoc live) := by
  induction docs generalizing live with
  | nil => exact h
  | cons d rest ih => exact ih (mergeDoc live d) (mergeDoc_nodup live d h)

/-- Folding merges over documents whose names all differ from `n` leaves the
rows named `n` untouched. -/
theorem foldl_mergeDoc_filter_other (docs : List SrcDoc) (live : Store) (n : String)
    (h : docIdsNodup live) (hnames : ∀ d ∈ docs, d.pdfName ≠ n) :
    (docs.foldl mergeDoc live).documents.filter (fun row => row.pdfName = n) =
      live.documents.filter (fun row => row.pdfName = n) := by
  induction docs generalizing live with
  | nil => rfl
  | cons d rest ih =>
    have h1 := ih (mergeDoc live d) (mergeDoc_nodup live d h)
      (fun e he => hnames e (List.mem_cons_of_mem d he))
    rw [List.foldl_cons, h1,
      mergeDoc_filter_other live d n (Ne.symm (hnames d (List.mem_cons_self d rest))) h]

/-- The run of the merge loop with a fault at relative position `k` commits
exactly the first `k` documents, whatever the in-flight partial writes of
the faulting transaction were. -/
theorem ingestRun_take (inFlight : Store → SrcDoc → Store) (docs : List SrcDoc) :
    ∀ (k i : Nat) (live : Store), k < docs.length →
      ingestRun inFlight (i + k) i live docs = ((docs.take k).foldl mergeDoc live, true) := by
  induction docs with
  | nil =>
    intro k i live hk
    exact absurd hk (by simp)
  | cons d rest ih =>
    intro k i live hk
    cases k with
    | zero => simp [ingestRun]
    | succ k' =>
      rw [ingestRun, if_neg (by omega)]
      have h1 := ih k' (i + 1) (mergeDoc live d) (by simpa using Nat.lt_of_succ_lt_succ hk)
      rw [show i + (k' + 1) = (i + 1) + k' by omega, h1]
      simp

/-- C3: the merge-ingest engine commits once per document in batch order.
If a fault strikes while document `k` (0-based) of the batch is in flight,
the committed live store is exactly the one obtained by merging documents
`0..k-1` — the in-flight writes of document `k`, whatever partial prefix of
its statements executed, are discarded — and, when document `k` shares no
`pdf_name` with an earlier document of the batch, its rows in the live
store are exactly what they were before the run. -/
theorem ingest_partial_batch_durability (inFlight : Store → SrcDoc → Store)
    (live : Store) (docs : List SrcDoc) (k : Nat)
    (hk : k < docs.length) (hnodup : docIdsNodup live) :
    ingestPdfs inFlight k live docs = ((docs.take k).foldl mergeDoc live, true) ∧
    (∀ d, docs.get? k = some d → (∀ e ∈ docs.take k, e.pdfName ≠ d.pdfName) →
      (ingestPdfs inFlight k live docs).1.documents.filter
          (fun row => row.pdfName = d.pdfName) =
        live.documents.filter (fun row => row.pdfName = d.pdfName)) := by
  have hbase : ingestPdfs inFlight k live docs = ((docs.take k).foldl mergeDoc live, true) := by
    have := ingestRun_take inFlight docs k 0 live hk
    simpa [ingestPdfs] using this
  refine ⟨hbase, fun d _ hnames => ?_⟩
  rw [hbase]
  exact foldl_mergeDoc_filter_other (docs.take k) live d.pdfName hnodup hnames

/-- Witness for C3: a two-document batch failing on the second document
leaves the first document committed and the second untouched. -/
theorem ingest_partial_batch_durability_witness :
    ingestPdfs (fun s _ => s) 1 Store.empty
        [⟨"a.pdf", "dir/a.pdf", "m", "t1", [], [], [], []⟩,
          ⟨"b.pdf", "dir/b.pdf", "m", "t2", [], [], [], []⟩] =
      (([⟨"a.pdf", "dir/a.pdf", "m", "t1", [], [], [], []⟩] :
          List SrcDoc).foldl mergeDoc Store.empty, true) :=
  (ingest_partial_batch_durability (fun s _ => s) Store.empty
    [⟨"a.pdf", "dir/a.pdf", "m", "t1", [], [], [], []⟩,
      ⟨"b.pdf", "dir/b.pdf", "m", "t2", [], [], [], []⟩] 1
    (by decide) (by simp [docIdsNodup, Store.empty])).1

/-! ### Lemmas for the hierarchy builder -/

/-- What one stack update can put at a position: the new row id at the
current level, and below it only old stack entries or the 0 placeholder. -/
theorem hierPush_get? (stack : List Nat) (level pid i q : Nat)
    (h : (hierPush stack level pid).get? i = some q) :
    (i = level ∧ q = pid) ∨ (i < level ∧ (stack.get? i = some q ∨ q = 0)) := by
  unfold hierPush at h
  rw [List.get?_eq_getElem?, List.getElem?_take] at h
  by_cases hi : i < level + 1
  · rw [if_pos hi, List.getElem?_set] at h
    by_cases hli : level = i
    · subst hli
      rw [if_pos rfl] at h
      left
      refine ⟨rfl, ?_⟩
      split at h
      · next hle =>
        rw [if_pos (by simp only [List.length_append, List.length_replicate]; omega)] at h
        exact (Option.some_inj.mp h).symm
      · next hgt =>
        rw [if_pos (by omega)] at h
        exact (Option.some_inj.mp h).symm
    · right
      rw [if_neg hli] at h
      refine ⟨by omega, ?_⟩
      split at h
      · rw [List.getElem?_append] at h
        by_cases him : i < stack.length
        · rw [if_pos him] at h
          left
          rw [List.get?_eq_getElem?]
          exact h
        · rw [if_neg him] at h
          rw [List.getElem?_replicate] at h
          split at h
          · right
            exact (Option.some_inj.mp h).symm
          · cases h
      · left
        rw [List.get?_eq_getElem?]
        exact h
  · rw [if_neg hi] at h
    cases h

/-- Soundness of the parent links produced by the insert loop, relative to a
stack every non-placeholder entry of which is the id of an already emitted
row at the corresponding level. -/
theorem buildHierGo_parent_sound (noms : List String) :
    ∀ (pid : Nat) (stack : List Nat) (hist : List HierRow),
      (∀ i q, stack.get? i = some q → q ≠ 0 →
        q < pid ∧ ∃ r2 ∈ hist, r2.partId = q ∧ r2.level = i) →
      ∀ r ∈ buildHierGo pid stack noms,
        pid ≤ r.partId ∧
        (r.parent = none ∨ r.parent = some 0 ∨
          ∃ q, r.parent = some q ∧ q ≠ 0 ∧ q < r.partId ∧ 1 ≤ r.level ∧
            ∃ r2 ∈ hist ++ buildHierGo pid stack noms,
              r2.partId = q ∧ r2.level + 1 = r.level) := by
  induction noms with
  | nil =>
    intro pid stack hist _ r hr
    cases hr
  | cons nom rest ih =>
    intro pid stack hist hinv r hr
    rw [buildHierGo] at hr ⊢
    rcases List.mem_cons.mp hr with hhd | htl
    · subst hhd
      refine ⟨le_refl _, ?_⟩
      cases hpar : hierParent stack (nomLevelAndClean nom).1 with
      | none => exact Or.inl (by simp [hpar])
      | some q =>
        by_cases hq : q = 0
        · exact Or.inr (Or.inl (by simp [hpar, hq]))
        · refine Or.inr (Or.inr ?_)
          have hlv : 0 < (nomLevelAndClean nom).1 ∧
              stack.get? ((nomLevelAndClean nom).1 - 1) = some q := by
            unfold hierParent at hpar
            split at hpar
            · next hc =>
              rw [Bool.and_eq_true] at hc
              exact ⟨of_decide_eq_true hc.1, hpar⟩
            · cases hpar
          obtain ⟨h0, hget⟩ := hlv
          obtain ⟨hqpid, r2, hr2, hr2id, hr2lv⟩ :=
            hinv ((nomLevelAndClean nom).1 - 1) q hget hq
          exact ⟨q, by simp [hpar], hq, hqpid, by simpa using h0,
            r2, List.mem_append_left _ hr2, hr2id, by simp; omega⟩
    · have hinv' : ∀ i q,
          (hierPush stack (nomLevelAndClean nom).1 pid).get? i = some q → q ≠ 0 →
          q < pid + 1 ∧
            ∃ r2 ∈ hist ++
                [⟨pid, (nomLevelAndClean nom).1, hierParent stack (nomLevelAndClean nom).1⟩],
              r2.partId = q ∧ r2.level = i := by
        intro i q hget hq
        rcases hierPush_get? stack (nomLevelAndClean nom).1 pid i q hget with
          ⟨hi, hqp⟩ | ⟨_, hca⟩
        · subst hqp
          refine ⟨Nat.lt_succ_self _,
            ⟨q, (nomLevelAndClean nom).1, hierParent stack (nomLevelAndClean nom).1⟩,
            List.mem_append_right _ (List.mem_singleton_self _), rfl, by simp [hi]⟩
        · rcases hca with hso | hz
          · obtain ⟨hqpid, r2, hr2, hr2id, hr2lv⟩ := hinv i q hso hq
            exact ⟨Nat.lt_succ_of_lt hqpid, r2, List.mem_append_left _ hr2, hr2id, hr2lv⟩
          · exact absurd hz hq
      have hres := ih (pid + 1) (hierPush stack (nomLevelAndClean nom).1 pid)
        (hist ++ [⟨pid, (nomLevelAndClean nom).1, hierParent stack (nomLevelAndClean nom).1⟩])
        hinv' r htl
      refine ⟨le_trans (Nat.le_succ _) hres.1, ?_⟩
      rcases hres.2 with h | h | ⟨q, hqe, hq0, hqlt, hlv, r2, hr2mem, hr2id, hr2lv⟩
      · exact Or.inl h
      · exact Or.inr (Or.inl h)
      · refine Or.inr (Or.inr ⟨q, hqe, hq0, hqlt, hlv, r2, ?_, hr2id, hr2lv⟩)
        rw [List.append_assoc] at hr2mem
        simpa using hr2mem

/-- C4 (amended): for the lines ITEM A / .SUB B / ..SUBSUB C the levels are
0, 1, 2 and SUBSUB is parented to SUB which is parented to ITEM; when the
sequence jumps from level 0 straight to level 2, the jumping row gets no
parent, while any LATER level-2 row before a level-1 row appears receives
the placeholder value 0, which is not the id of any row (row ids start at
1).  In general every stored parent reference is either NULL, the
placeholder 0, or the id of an earlier row of the same figure group whose
level is exactly one less — a parent pointing at an actual row is never
fabricated across a hierarchy gap. -/
theorem hierarchy_parent_policy :
    buildHier ["ITEM A", ".SUB B", "..SUBSUB C"] =
      [⟨1, 0, none⟩, ⟨2, 1, some 1⟩, ⟨3, 2, some 2⟩] ∧
    buildHier ["ITEM A", "..SUBSUB C", "..SUBSUB D"] =
      [⟨1, 0, none⟩, ⟨2, 2, none⟩, ⟨3, 2, some 0⟩] ∧
    (∀ noms, ∀ r ∈ buildHier noms,
      1 ≤ r.partId ∧
      (r.parent = none ∨ r.parent = some 0 ∨
        ∃ q, r.parent = some q ∧ q ≠ 0 ∧ q < r.partId ∧ 1 ≤ r.level ∧
          ∃ r2 ∈ buildHier noms, r2.partId = q ∧ r2.level + 1 = r.level)) := by
  refine ⟨by decide, by decide, ?_⟩
  intro noms r hr
  have h := buildHierGo_parent_sound noms 1 [] []
    (by intro i q hget _; simp [List.get?_eq_getElem?] at hget) r hr
  simpa [buildHier] using h

/-- Witness for C4 (amended) at the second row of a two-line group. -/
theorem hierarchy_parent_policy_witness :
    (⟨2, 1, some 1⟩ : HierRow) ∈ buildHier ["ITEM A", ".SUB B"] ∧
    (1 ≤ (⟨2, 1, some 1⟩ : HierRow).partId ∧
      ((⟨2, 1, some 1⟩ : HierRow).parent = none ∨
        (⟨2, 1, some 1⟩ : HierRow).parent = some 0 ∨
        ∃ q, (⟨2, 1, some 1⟩ : HierRow).parent = some q ∧ q ≠ 0 ∧
          q < (⟨2, 1, some 1⟩ : HierRow).partId ∧ 1 ≤ (⟨2, 1, some 1⟩ : HierRow).level ∧
          ∃ r2 ∈ buildHier ["ITEM A", ".SUB B"],
            r2.partId = q ∧ r2.level + 1 = (⟨2, 1, some 1⟩ : HierRow).level)) :=
  ⟨by decide,
    hierarchy_parent_policy.2.2 ["ITEM A", ".SUB B"] ⟨2, 1, some 1⟩ (by decide)⟩

set_option maxHeartbeats 1600000 in
/-- C9: two anchor lines in the part-number column band with IDENTICAL
part-number text are merged into one anchor exactly when their vertical
distance is within the deduplication tolerance of 3.0 points; when the gap
exceeds the tolerance both are kept as separate anchors, so genuinely
repeated identical part numbers on separate rows each produce their own
row record.  (The hypothesis `y1 + 2 < y2` keeps the two words in distinct
visual lines of the 2.0-point line clustering; the merge window is the
region between the clustering and deduplication tolerances.) -/
theorem anchor_dedup_tolerance (y1 y2 : ℚ)
    (hlo : coordYScanStart ≤ y1) (hhi : y2 ≤ coordYTableBottom)
    (hgap : y1 + 2 < y2) :
    coordsPartNumberAnchors
        [⟨140, y1, 160, y1, "ABC-123"⟩, ⟨140, y2, 160, y2, "ABC-123"⟩] =
      (if y2 - y1 ≤ 3 then [(y1, "ABC-123")]
        else [(y1, "ABC-123"), (y2, "ABC-123")]) := by
  have hy12 : y1 < y2 := by linarith
  have hy1hi : y1 ≤ coordYTableBottom := le_trans (le_of_lt hy12) hhi
  have hy2lo : coordYScanStart ≤ y2 := le_trans hlo (le_of_lt hy12)
  have habs2 : (0 : ℚ) < y2 - y1 := by linarith
  have hgap2 : (2 : ℚ) < y2 - y1 := by linarith
  have hnot21 : ¬ (y2 < y1) := by linarith
  unfold coordsPartNumberAnchors
  rw [List.filter_cons_of_pos, List.filter_cons_of_pos, List.filter_nil]
  rotate_left
  · simp only [Bool.and_eq_true, Bool.not_eq_true', decide_eq_false_iff_not, not_lt]
    refine ⟨⟨⟨?_, ?_⟩, ?_⟩, ?_⟩ <;>
      first
        | linarith
        | norm_num [partNumberBandX0, partNumberBandX1, pt, ptPerCm]
  · simp only [Bool.and_eq_true, Bool.not_eq_true', decide_eq_false_iff_not, not_lt]
    refine ⟨⟨⟨?_, ?_⟩, ?_⟩, ?_⟩ <;>
      first
        | linarith
        | norm_num [partNumberBandX0, partNumberBandX1, pt, ptPerCm]
  have hlooks : looksLikePartNumberCell "ABC-123" = true := by decide
  have hsort : sortByYX [⟨140, y1, 160, y1, "ABC-123"⟩, ⟨140, y2, 160, y2, "ABC-123"⟩] =
      [⟨140, y1, 160, y1, "ABC-123"⟩, ⟨140, y2, 160, y2, "ABC-123"⟩] := by
    simp only [sortByYX, List.foldl_cons, List.foldl_nil, insSorted]
    rw [if_neg]
    simp only [Bool.or_eq_true, Bool.and_eq_true, decide_eq_true_eq, not_or]
    constructor
    · linarith
    · rintro ⟨h, -⟩
      exact absurd h (by linarith)
  have hgrp : wordsByY [⟨140, y1, 160, y1, "ABC-123"⟩, ⟨140, y2, 160, y2, "ABC-123"⟩] 2 =
      [(y1, [⟨140, y1, 160, y1, "ABC-123"⟩]), (y2, [⟨140, y2, 160, y2, "ABC-123"⟩])] := by
    unfold wordsByY
    rw [hsort]
    simp only [List.foldl_cons, List.foldl_nil]
    norm_num [List.getLast?]
    intro h
    rw [abs_of_pos habs2] at h
    exact absurd h (not_le.mpr hgap2)
  have hstep1 : coordsPartNumberAnchors.anchorStep []
      (y1, [⟨140, y1, 160, y1, "ABC-123"⟩]) = [(y1, "ABC-123")] := by
    have ha1 : anchorText [(⟨140, y1, 160, y1, "ABC-123"⟩ : Word)] = "ABC-123" := rfl
    simp only [coordsPartNumberAnchors.anchorStep, ha1, hlooks, Bool.not_true,
      Bool.false_eq_true, if_false, List.getLast?, List.nil_append]
  have hstep2 : coordsPartNumberAnchors.anchorStep [(y1, "ABC-123")]
      (y2, [⟨140, y2, 160, y2, "ABC-123"⟩]) =
      (if y2 - y1 ≤ 3 then [(y1, "ABC-123")] else [(y1, "ABC-123"), (y2, "ABC-123")]) := by
    have ha2 : anchorText [(⟨140, y2, 160, y2, "ABC-123"⟩ : Word)] = "ABC-123" := rfl
    simp only [coordsPartNumberAnchors.anchorStep, ha2, hlooks, Bool.not_true,
      Bool.false_eq_true, if_false, List.getLast?, List.getLast_singleton]
    rw [abs_of_pos habs2]
    by_cases hc : y2 - y1 ≤ 3
    · rw [if_pos hc]
      simp [hc]
    · rw [if_neg hc]
      simp [hc]
  show sortAnchors
      ((wordsByY [⟨140, y1, 160, y1, "ABC-123"⟩, ⟨140, y2, 160, y2, "ABC-123"⟩] 2).foldl
        coordsPartNumberAnchors.anchorStep []) = _
  rw [hgrp, List.foldl_cons, hstep1, List.foldl_cons, hstep2, List.foldl_nil]
  by_cases hc : y2 - y1 ≤ 3
  · rw [if_pos hc]
    rfl
  · rw [if_neg hc]
    simp only [sortAnchors, List.foldl_cons, List.foldl_nil, insSortedFst]
    rw [if_neg hnot21]

/-- Witness for C9: a 2.5-point gap (within tolerance) merges the duplicate
anchors; a 10-point gap keeps both. -/
theorem anchor_dedup_tolerance_witness :
    coordsPartNumberAnchors
        [⟨140, 200, 160, 200, "ABC-123"⟩, ⟨140, (405 : ℚ)/2, 160, (405 : ℚ)/2, "ABC-123"⟩] =
      [((200 : ℚ), "ABC-123")] ∧
    coordsPartNumberAnchors
        [⟨140, 200, 160, 200, "ABC-123"⟩, ⟨140, 210, 160, 210, "ABC-123"⟩] =
      [((200 : ℚ), "ABC-123"), ((210 : ℚ), "ABC-123")] := by
  constructor
  · have h := anchor_dedup_tolerance 200 ((405 : ℚ)/2)
      (by norm_num [coordYScanStart, pt, ptPerCm])
      (by norm_num [coordYTableBottom, pt, ptPerCm])
      (by norm_num)
    rw [if_pos (by norm_num)] at h
    exact h
  · have h := anchor_dedup_tolerance 200 210
      (by norm_num [coordYScanStart, pt, ptPerCm])
      (by norm_num [coordYTableBottom, pt, ptPerCm])
      (by norm_num)
    rw [if_neg (by norm_num)] at h
    exact h

end IpcQuery
